import Mathlib

/-!
Verification model of `packages/autonomify-enclave/http-proxy.py`.

The proxy bridges HTTP POST requests to a backend reachable over a
connection-oriented vsock transport.  Bytes are modelled as `List Nat`
(byte values), the backend's observable behaviour during one exchange as a
`Net` value (connect outcome, send outcome, and the sequence of `recv`
results), and the Python standard-library calls `bytes.decode("utf-8")`
and `json.loads` as the executable functions `utf8Decode` and
`jsonValidChars` below.
-/

namespace Autonomify

/-- JSON whitespace, as accepted by Python's `json.loads`. -/
def isWS (c : Char) : Bool :=
  c == ' ' || c == Char.ofNat 9 || c == Char.ofNat 10 || c == Char.ofNat 13

/-- Drop leading JSON whitespace. -/
def skipWS : List Char → List Char
  | [] => []
  | c :: cs => if isWS c then skipWS cs else c :: cs

def isDigit (c : Char) : Bool := 48 ≤ c.toNat && c.toNat ≤ 57

def isHexDig (c : Char) : Bool :=
  (48 ≤ c.toNat && c.toNat ≤ 57) || (97 ≤ c.toNat && c.toNat ≤ 102) ||
  (65 ≤ c.toNat && c.toNat ≤ 70)

/-- Consume a maximal (possibly empty) run of decimal digits. -/
def digitsMany : List Char → List Char
  | [] => []
  | c :: cs => if isDigit c then digitsMany cs else c :: cs

/-- Consume one or more decimal digits. -/
def digits1 : List Char → Option (List Char)
  | [] => none
  | c :: cs => if isDigit c then some (digitsMany cs) else none

/-- Integer part after an optional minus sign: `0` or a nonzero-led digit run. -/
def intRest : List Char → Option (List Char)
  | [] => none
  | c :: cs =>
    if c == '0' then some cs
    else if isDigit c then some (digitsMany cs)
    else none

/-- Optional fraction part `.digits`. -/
def fracRest : List Char → Option (List Char)
  | [] => some []
  | c :: cs => if c == '.' then digits1 cs else some (c :: cs)

/-- Optional exponent part `[eE][+-]?digits`. -/
def expoRest : List Char → Option (List Char)
  | [] => some []
  | c :: cs =>
    if c == 'e' || c == 'E' then
      match cs with
      | [] => none
      | d :: ds => if d == '+' || d == '-' then digits1 ds else digits1 (d :: ds)
    else some (c :: cs)

/-- A JSON number, per the grammar used by Python's `json.loads`. -/
def numRest (l : List Char) : Option (List Char) :=
  let l1 := match l with
    | c :: cs => if c == '-' then cs else l
    | [] => l
  match intRest l1 with
  | none => none
  | some l2 =>
    match fracRest l2 with
    | none => none
    | some l3 => expoRest l3

/-- Consume an exact literal character sequence. -/
def expectLit : List Char → List Char → Option (List Char)
  | [], l => some l
  | c :: cs, l =>
    match l with
    | [] => none
    | d :: ds => if d == c then expectLit cs ds else none

/-- Body of a JSON string after the opening quote.  Python's strict mode
rejects raw control characters below 0x20 inside strings. -/
def strRest : List Char → Option (List Char)
  | [] => none
  | c :: cs =>
    if c == Char.ofNat 34 then some cs
    else if c == Char.ofNat 92 then
      match cs with
      | [] => none
      | e :: cs2 =>
        if e == 'u' then
          match cs2 with
          | h1 :: h2 :: h3 :: h4 :: cs3 =>
            if isHexDig h1 && isHexDig h2 && isHexDig h3 && isHexDig h4 then
              strRest cs3
            else none
          | _ => none
        else if e == Char.ofNat 34 || e == Char.ofNat 92 || e == '/' || e == 'b' ||
                e == 'f' || e == 'n' || e == 'r' || e == 't' then
          strRest cs2
        else none
    else if c.toNat < 32 then none
    else strRest cs

mutual

/-- One JSON value (leading whitespace already skipped).  Fuel-indexed
recursive-descent recogniser for the grammar accepted by `json.loads`,
including Python's non-standard `NaN`, `Infinity` and `-Infinity`. -/
def jsonVal : Nat → List Char → Option (List Char)
  | 0, _ => none
  | _ + 1, [] => none
  | fuel + 1, c :: cs =>
    if c == Char.ofNat 34 then strRest cs
    else if c == Char.ofNat 123 then objRest fuel (skipWS cs)
    else if c == '[' then arrRest fuel (skipWS cs)
    else if c == 't' then expectLit ['r', 'u', 'e'] cs
    else if c == 'f' then expectLit ['a', 'l', 's', 'e'] cs
    else if c == 'n' then expectLit ['u', 'l', 'l'] cs
    else if c == 'N' then expectLit ['a', 'N'] cs
    else if c == 'I' then expectLit ['n', 'f', 'i', 'n', 'i', 't', 'y'] cs
    else if c == '-' then
      match cs with
      | 'I' :: cs2 => expectLit ['n', 'f', 'i', 'n', 'i', 't', 'y'] cs2
      | _ => numRest (c :: cs)
    else numRest (c :: cs)

/-- Object interior after the opening brace and whitespace. -/
def objRest : Nat → List Char → Option (List Char)
  | 0, _ => none
  | _ + 1, [] => none
  | fuel + 1, c :: cs =>
    if c == Char.ofNat 125 then some cs
    else if c == Char.ofNat 34 then objMember fuel cs
    else none

/-- One object member starting right after the key's opening quote. -/
def objMember : Nat → List Char → Option (List Char)
  | 0, _ => none
  | fuel + 1, l =>
    match strRest l with
    | none => none
    | some l1 =>
      match skipWS l1 with
      | ':' :: l2 =>
        match jsonVal fuel (skipWS l2) with
        | none => none
        | some l3 => objMore fuel (skipWS l3)
      | _ => none

/-- After an object member: either a comma and another member, or the
closing brace. -/
def objMore : Nat → List Char → Option (List Char)
  | 0, _ => none
  | _ + 1, [] => none
  | fuel + 1, c :: cs =>
    if c == Char.ofNat 125 then some cs
    else if c == ',' then
      match skipWS cs with
      | d :: ds => if d == Char.ofNat 34 then objMember fuel ds else none
      | [] => none
    else none

/-- Array interior after the opening bracket and whitespace. -/
def arrRest : Nat → List Char → Option (List Char)
  | 0, _ => none
  | _ + 1, [] => none
  | fuel + 1, c :: cs =>
    if c == ']' then some cs
    else
      match jsonVal fuel (c :: cs) with
      | none => none
      | some l1 => arrMore fuel (skipWS l1)

/-- After an array element: either a comma and another element, or the
closing bracket. -/
def arrMore : Nat → List Char → Option (List Char)
  | 0, _ => none
  | _ + 1, [] => none
  | fuel + 1, c :: cs =>
    if c == ']' then some cs
    else if c == ',' then
      match jsonVal fuel (skipWS cs) with
      | none => none
      | some l1 => arrMore fuel (skipWS l1)
    else none

end

/-- `json.loads` succeeds on this character sequence: optional whitespace,
exactly one JSON value, optional whitespace, end of input. -/
def jsonValidChars (cs : List Char) : Bool :=
  match jsonVal (2 * cs.length + 4) (skipWS cs) with
  | some rest => (skipWS rest).isEmpty
  | none => false

/-- Is `b` a UTF-8 continuation byte. -/
def isCont (b : Nat) : Bool := 128 ≤ b && b < 192

/-- Strict UTF-8 decoding, as performed by Python's
`bytes.decode("utf-8")`: rejects continuation-byte leads, overlong
encodings, surrogates, values above U+10FFFF and truncated sequences. -/
def utf8Decode : List Nat → Option (List Char)
  | [] => some []
  | b :: bs =>
    if b < 128 then
      match utf8Decode bs with
      | some cs => some (Char.ofNat b :: cs)
      | none => none
    else if b < 194 then none
    else if b < 224 then
      match bs with
      | b1 :: bs2 =>
        if isCont b1 then
          match utf8Decode bs2 with
          | some cs => some (Char.ofNat ((b - 192) * 64 + (b1 - 128)) :: cs)
          | none => none
        else none
      | [] => none
    else if b < 240 then
      match bs with
      | b1 :: b2 :: bs2 =>
        if isCont b1 && isCont b2 then
          let v := (b - 224) * 4096 + (b1 - 128) * 64 + (b2 - 128)
          if 2048 ≤ v && !(55296 ≤ v && v ≤ 57343) then
            match utf8Decode bs2 with
            | some cs => some (Char.ofNat v :: cs)
            | none => none
          else none
        else none
      | _ => none
    else if b < 245 then
      match bs with
      | b1 :: b2 :: b3 :: bs2 =>
        if isCont b1 && isCont b2 && isCont b3 then
          let v := (b - 240) * 262144 + (b1 - 128) * 4096 + (b2 - 128) * 64 + (b3 - 128)
          if 65536 ≤ v && v ≤ 1114111 then
            match utf8Decode bs2 with
            | some cs => some (Char.ofNat v :: cs)
            | none => none
          else none
        else none
      | _ => none
    else none

/-- `json.loads(bytes.decode("utf-8"))` succeeds on these bytes.  This is
the completeness test the proxy's read loop applies to its accumulated
buffer after every chunk. -/
def pyParses (bs : List Nat) : Bool :=
  match utf8Decode bs with
  | none => false
  | some cs => jsonValidChars cs

/-- UTF-8 encoding of one character. -/
def encodeChar (c : Char) : List Nat :=
  let n := c.toNat
  if n < 128 then [n]
  else if n < 2048 then [192 + n / 64, 128 + n % 64]
  else if n < 65536 then [224 + n / 4096, 128 + (n / 64) % 64, 128 + n % 64]
  else [240 + n / 262144, 128 + (n / 4096) % 64, 128 + (n / 64) % 64, 128 + n % 64]

/-- `str.encode("utf-8")`. -/
def strBytes (s : String) : List Nat := (s.data.map encodeChar).flatten

/-- Lowercase hex digit. -/
def hexChar (n : Nat) : Char :=
  if n < 10 then Char.ofNat (48 + n) else Char.ofNat (87 + n)

/-- Four lowercase hex digits. -/
def hex4 (n : Nat) : List Char :=
  [hexChar (n / 4096 % 16), hexChar (n / 256 % 16), hexChar (n / 16 % 16), hexChar (n % 16)]

/-- How Python's `json.dumps` (default `ensure_ascii=True`) escapes one
character inside a string literal. -/
def pyEscChar (c : Char) : List Char :=
  let n := c.toNat
  if c == Char.ofNat 34 then [Char.ofNat 92, Char.ofNat 34]
  else if c == Char.ofNat 92 then [Char.ofNat 92, Char.ofNat 92]
  else if n == 8 then [Char.ofNat 92, 'b']
  else if n == 9 then [Char.ofNat 92, 't']
  else if n == 10 then [Char.ofNat 92, 'n']
  else if n == 12 then [Char.ofNat 92, 'f']
  else if n == 13 then [Char.ofNat 92, 'r']
  else if n < 32 || n > 126 then
    if n < 65536 then Char.ofNat 92 :: 'u' :: hex4 n
    else
      let m := n - 65536
      (Char.ofNat 92 :: 'u' :: hex4 (55296 + m / 1024)) ++
        (Char.ofNat 92 :: 'u' :: hex4 (56320 + m % 1024))
  else [c]

/-- A Python `json.dumps` string literal: quote, escaped characters, quote. -/
def pyStrLit (s : String) : List Char :=
  Char.ofNat 34 :: (s.data.map pyEscChar).flatten ++ [Char.ofNat 34]

/-- `json.dumps(\x7b"error": msg\x7d)` as a character list. -/
def dumpsError (msg : String) : List Char :=
  Char.ofNat 123 :: pyStrLit "error" ++ ':' :: ' ' :: pyStrLit msg ++ [Char.ofNat 125]

/-- `json.dumps(\x7b"error": msg\x7d).encode("utf-8")`: the error document
the proxy fabricates, both in `_send_error` and in `_call_enclave`'s
exception handler. -/
def errorDoc (msg : String) : List Nat := (dumpsError msg |>.map encodeChar).flatten

/-- `json.dumps(\x7b"status": st, "enclave_cid": cid\x7d)` as produced by the
health endpoint (Python dicts preserve insertion order). -/
def dumpsStatus (st : String) (cid : Nat) : List Char :=
  Char.ofNat 123 :: pyStrLit "status" ++ ':' :: ' ' :: pyStrLit st ++
    ',' :: ' ' :: pyStrLit "enclave_cid" ++ ':' :: ' ' :: (toString cid).data ++
    [Char.ofNat 125]

/-- Default backend context identifier (`ENCLAVE_CID = 16`). -/
def ENCLAVE_CID : Nat := 16

/-- Backend vsock port (`ENCLAVE_PORT = 5000`). -/
def ENCLAVE_PORT : Nat := 5000

/-- Read/connect timeout set on the exchange socket (`s.settimeout(60)`),
in seconds.  Note this is a per-operation timeout: every blocking `recv`
gets its own 60-second budget. -/
def readTimeout : Nat := 60

/-- Timeout of the liveness probe socket (`s.settimeout(2)`), in seconds. -/
def probeTimeout : Nat := 2

/-- Chunk size of each `recv` call (`s.recv(4096)`). -/
def chunkCap : Nat := 4096

/-- Result of one `s.recv(4096)` call, from the proxy's point of view,
together with the number of seconds the call blocked before returning.
An empty `chunk` is a zero-length read, i.e. the backend closed the
stream.  `sockTimeout` is a raised `socket.timeout`; `sockErr` is any
other exception raised by `recv`. -/
inductive RecvEvent where
  | chunk (data : List Nat) (dur : Nat)
  | sockTimeout (dur : Nat)
  | sockErr (msg : String) (dur : Nat)
deriving DecidableEq

/-- Why the read loop of `_call_enclave` stopped: zero-length read,
successful structural parse of the buffer, `socket.timeout`, or an
exception that escapes the loop (any non-timeout `recv` error, or the
`UnicodeDecodeError` raised by `response.decode("utf-8")`, which the
inner `except json.JSONDecodeError` does not catch). -/
inductive LoopExit where
  | closed
  | parsed
  | timedOut
  | raised (msg : String)
deriving DecidableEq

/-- Stands for `str(e)` of the `UnicodeDecodeError` raised when the
accumulated buffer is not valid UTF-8; the model does not reproduce
Python's exact message text. -/
def unicodeErrMsg : String := "utf-8 codec cannot decode accumulated buffer"

/-- Observable behaviour of the backend transport during one
`_call_enclave` invocation: outcome of `connect` (`none` = success,
`some msg` = exception with message `msg`), outcome of `sendall`, and
the successive results of `recv`.  Once `recvs` is exhausted the socket
has nothing more to deliver, so the next blocking `recv` raises
`socket.timeout` after `readTimeout` seconds. -/
structure Net where
  connectRes : Option String
  sendRes : Option String
  recvs : List RecvEvent
deriving DecidableEq

/-- The read loop of `_call_enclave`: receive chunks, append to the
buffer, break on zero-length read, break when `json.loads` accepts the
decoded buffer, break on `socket.timeout`, propagate any other
exception.  Returns the final buffer, the reason the loop stopped, and
the total seconds spent blocked in `recv`. -/
def recvLoop : List RecvEvent → List Nat → List Nat × LoopExit × Nat
  | [], buf => (buf, LoopExit.timedOut, readTimeout)
  | RecvEvent.sockTimeout d :: _, buf => (buf, LoopExit.timedOut, d)
  | RecvEvent.sockErr m d :: _, buf => (buf, LoopExit.raised m, d)
  | RecvEvent.chunk data d :: rest, buf =>
    if data.isEmpty then (buf, LoopExit.closed, d)
    else
      let buf2 := buf ++ data
      match utf8Decode buf2 with
      | none => (buf2, LoopExit.raised unicodeErrMsg, d)
      | some cs =>
        if jsonValidChars cs then (buf2, LoopExit.parsed, d)
        else
          let r := recvLoop rest buf2
          (r.1, r.2.1, d + r.2.2)

/-- What one `_call_enclave` call did: its Python return value (`none`
models Python `None`), whether `connect` succeeded, whether `s.close()`
was executed, how the read loop ended (`none` when it was never
entered), and the total seconds spent in `recv`. -/
structure CallResult where
  ret : Option (List Nat)
  connOpened : Bool
  closed : Bool
  loopExit : Option LoopExit
  readTime : Nat
deriving DecidableEq

/-- `_call_enclave(body_bytes)`.  The `try` block creates and connects a
socket, sends `body_bytes + b'\n'`, runs the read loop, closes the
socket and returns the buffer (or `None` when it is empty).  Any
exception reaching the `except` clause — connect failure, send failure,
or an error escaping the read loop — is converted into the JSON error
document `errorDoc ("Enclave error: " ++ msg)`; on those paths
`s.close()` is never executed. -/
def callEnclave (net : Net) : CallResult :=
  match net.connectRes with
  | some e =>
    { ret := some (errorDoc ("Enclave error: " ++ e)), connOpened := false,
      closed := false, loopExit := none, readTime := 0 }
  | none =>
    match net.sendRes with
    | some e =>
      { ret := some (errorDoc ("Enclave error: " ++ e)), connOpened := true,
        closed := false, loopExit := none, readTime := 0 }
    | none =>
      match recvLoop net.recvs [] with
      | (buf, ex, t) =>
        match ex with
        | LoopExit.raised m =>
          { ret := some (errorDoc ("Enclave error: " ++ m)), connOpened := true,
            closed := false, loopExit := some (LoopExit.raised m), readTime := t }
        | ex =>
          { ret := if buf.isEmpty then none else some buf, connOpened := true,
            closed := true, loopExit := some ex, readTime := t }

/-- An HTTP response as assembled by the handler: status code, value of
the `Content-Type` header, body bytes. -/
structure HttpResponse where
  status : Nat
  contentType : String
  body : List Nat
deriving DecidableEq

/-- `_send_error(status_code, message)`: JSON error document with the
given status. -/
def sendErrorResp (code : Nat) (msg : String) : HttpResponse :=
  { status := code, contentType := "application/json", body := errorDoc msg }

/-- Result of `do_POST`: the HTTP response plus whether `_call_enclave`
was invoked (i.e. whether a backend connection was attempted). -/
structure PostResult where
  resp : HttpResponse
  contactedEnclave : Bool
deriving DecidableEq

/-- After `json.loads` succeeds, is the resulting Python value a dict?
`do_POST` calls `message.get('type')` on the parsed value for
diagnostic logging; only a dict has `.get`, and a valid JSON document
denotes a dict exactly when its first non-whitespace character is an
opening brace. -/
def jsonTopIsObj (cs : List Char) : Bool :=
  match skipWS cs with
  | c :: _ => c == Char.ofNat 123
  | [] => false

/-- Stands for `str(e)` of the `AttributeError` raised by
`message.get('type')` when `json.loads` produced a non-dict value; the
model does not reproduce Python's exact message text. -/
def attrErrMsg : String := "object has no attribute get"

/-- `do_POST` with request body `body`, given backend behaviour `net`.
Empty body → 400 "Empty request body".  `json.loads(body.decode())`
raising `JSONDecodeError` → 400 "Invalid JSON"; but a body that is not
valid UTF-8 raises `UnicodeDecodeError`, which only the outer
`except Exception` catches → 500 with `str(e)`.  A body parsing as a
non-dict value (e.g. `5`, `[1]`, `"x"`) raises `AttributeError` at the
diagnostic `message.get('type')`, likewise caught only by the outer
handler → 500, before `_call_enclave` is ever reached.  Otherwise the
body is forwarded to `_call_enclave`; `None` → 502, any bytes → 200
with those bytes verbatim and Content-Type `application/json`. -/
def doPOST (body : List Nat) (net : Net) : PostResult :=
  if body.length = 0 then
    { resp := sendErrorResp 400 "Empty request body", contactedEnclave := false }
  else
    match utf8Decode body with
    | none =>
      { resp := sendErrorResp 500 unicodeErrMsg, contactedEnclave := false }
    | some cs =>
      if jsonValidChars cs then
        if jsonTopIsObj cs then
          match (callEnclave net).ret with
          | none =>
            { resp := sendErrorResp 502 "Enclave returned empty response",
              contactedEnclave := true }
          | some bs =>
            { resp := { status := 200, contentType := "application/json", body := bs },
              contactedEnclave := true }
        else
          { resp := sendErrorResp 500 attrErrMsg, contactedEnclave := false }
      else
        { resp := sendErrorResp 400 "Invalid JSON", contactedEnclave := false }

/-- `_is_enclave_running()`: create a socket, connect with a 2-second
timeout, close, return `True`; any exception yields `False`.  The
argument is the outcome of the connect attempt (`none` = success). -/
def isEnclaveRunning (connectRes : Option String) : Bool :=
  connectRes.isNone

/-- `do_GET`: the `/health` endpoint reports the probe result as
`200 {"status": "healthy", "enclave_cid": cid}` or
`503 {"status": "enclave_down", "enclave_cid": cid}`; any other path is
404. -/
def doGET (path : String) (connectRes : Option String) (cid : Nat) : HttpResponse :=
  if path = "/health" then
    let running := isEnclaveRunning connectRes
    { status := if running then 200 else 503,
      contentType := "application/json",
      body := ((dumpsStatus (if running then "healthy" else "enclave_down") cid).map
        encodeChar).flatten }
  else sendErrorResp 404 "Not found"

/-- Physical well-formedness of one recv event: a `recv` that returns
(data or close) blocks for at most the 60-second socket timeout and
yields at most `recv(4096)`'s 4096 bytes; a raised `socket.timeout`
blocks for exactly the timeout; any other error surfaces within the
timeout. -/
def evWF : RecvEvent → Bool
  | RecvEvent.chunk data d => d ≤ readTimeout && data.length ≤ chunkCap
  | RecvEvent.sockTimeout d => d == readTimeout
  | RecvEvent.sockErr _ d => d ≤ readTimeout

/-- All recv events of a backend behaviour are physically well-formed. -/
def netWF (net : Net) : Bool := net.recvs.all evWF

/-- The bytes delivered by a recv event (empty for timeouts and errors). -/
def evData : RecvEvent → List Nat
  | RecvEvent.chunk d _ => d
  | _ => []

end Autonomify

namespace Autonomify

/-! Helper lemmas about the read loop, shared by several claim theorems. -/

/-- When the read loop stops because of a successful structural parse,
the buffer it returns passes `pyParses`. -/
theorem recvLoop_parsed_parses (evs : List RecvEvent) (buf : List Nat)
    (h : (recvLoop evs buf).2.1 = LoopExit.parsed) :
    pyParses (recvLoop evs buf).1 = true := by
  induction evs generalizing buf with
  | nil => simp [recvLoop] at h
  | cons ev rest ih =>
    cases ev with
    | sockTimeout d => simp [recvLoop] at h
    | sockErr m d => simp [recvLoop] at h
    | chunk data d =>
      by_cases hd : data.isEmpty
      · simp [recvLoop, hd] at h
      · cases hdec : utf8Decode (buf ++ data) with
        | none => simp [recvLoop, hd, hdec] at h
        | some cs =>
          by_cases hv : jsonValidChars cs
          · simp only [recvLoop, hd, Bool.false_eq_true, if_false, hdec, hv, if_true]
            simp [pyParses, hdec, hv]
          · simp only [recvLoop, hd, Bool.false_eq_true, if_false, hdec, hv,
              Bool.false_eq_true] at h ⊢
            exact ih (buf ++ data) h

/-- Total time spent in `recv` is bounded by one 60-second per-operation
timeout per backend event, plus the final blocking timeout. -/
theorem recvLoop_time_le (evs : List RecvEvent) (buf : List Nat)
    (h : evs.all evWF = true) :
    (recvLoop evs buf).2.2 ≤ readTimeout * (evs.length + 1) := by
  induction evs generalizing buf with
  | nil => simp [recvLoop, readTimeout]
  | cons ev rest ih =>
    have hev : evWF ev = true := List.all_eq_true.mp h ev (List.mem_cons_self ev rest)
    have hrest : rest.all evWF = true :=
      List.all_eq_true.mpr fun x hx => List.all_eq_true.mp h x (List.mem_cons_of_mem ev hx)
    cases ev with
    | sockTimeout d =>
      have hd : d = readTimeout := by simpa [evWF] using hev
      simp only [recvLoop, List.length_cons, readTimeout] at hd ⊢
      omega
    | sockErr m d =>
      have hd : d ≤ readTimeout := by simpa [evWF] using hev
      simp only [recvLoop, List.length_cons, readTimeout] at hd ⊢
      omega
    | chunk data d =>
      have hd : d ≤ readTimeout := by
        have h2 : d ≤ readTimeout ∧ data.length ≤ chunkCap := by simpa [evWF] using hev
        exact h2.1
      have ihh := ih (buf ++ data) hrest
      by_cases he : data.isEmpty
      · simp only [recvLoop, he, if_true, List.length_cons, readTimeout] at hd ⊢
        omega
      · cases hdec : utf8Decode (buf ++ data) with
        | none =>
          simp only [recvLoop, he, Bool.false_eq_true, if_false, hdec, List.length_cons,
            readTimeout] at hd ⊢
          omega
        | some cs =>
          by_cases hv : jsonValidChars cs
          · simp only [recvLoop, he, Bool.false_eq_true, if_false, hdec, hv, if_true,
              List.length_cons, readTimeout] at hd ⊢
            omega
          · simp only [recvLoop, he, Bool.false_eq_true, if_false, hdec, hv,
              Bool.false_eq_true, List.length_cons, readTimeout] at hd ihh ⊢
            omega

/-- If every backend event delivers a nonempty data chunk, every
intermediate accumulated buffer decodes as UTF-8 but fails the JSON
parse, and the full concatenation parses, then the read loop consumes
all chunks and stops with a successful parse, returning the whole
concatenation. -/
theorem recvLoop_incremental (evs : List RecvEvent) (buf : List Nat)
    (hne : evs ≠ [])
    (hall : ∀ ev ∈ evs, ∃ d dur, ev = RecvEvent.chunk d dur ∧ d ≠ [])
    (hmid : ∀ i, i + 1 < evs.length →
      ∃ cs, utf8Decode (buf ++ ((evs.take (i + 1)).map evData).flatten) = some cs ∧
        jsonValidChars cs = false)
    (hfull : pyParses (buf ++ (evs.map evData).flatten) = true) :
    (recvLoop evs buf).1 = buf ++ (evs.map evData).flatten ∧
    (recvLoop evs buf).2.1 = LoopExit.parsed := by
  induction evs generalizing buf with
  | nil => exact absurd rfl hne
  | cons ev rest ih =>
    obtain ⟨d, dur, rfl, hdne⟩ := hall ev (List.mem_cons_self ev rest)
    have hde : d.isEmpty = false := by
      cases d with
      | nil => exact absurd rfl hdne
      | cons x xs => rfl
    cases rest with
    | nil =>
      have hfull2 : pyParses (buf ++ d) = true := by
        simpa [evData] using hfull
      obtain ⟨cs, hdec, hv⟩ :
          ∃ cs, utf8Decode (buf ++ d) = some cs ∧ jsonValidChars cs = true := by
        unfold pyParses at hfull2
        cases hdec : utf8Decode (buf ++ d) with
        | none => rw [hdec] at hfull2; simp at hfull2
        | some cs => rw [hdec] at hfull2; exact ⟨cs, rfl, hfull2⟩
      constructor <;> simp [recvLoop, hde, hdec, hv, evData]
    | cons ev2 rest2 =>
      have h0 := hmid 0 (by simp)
      obtain ⟨cs0, hdec0, hv0⟩ :
          ∃ cs, utf8Decode (buf ++ d) = some cs ∧ jsonValidChars cs = false := by
        simpa [evData] using h0
      have ihh := ih (buf ++ d) (by simp)
        (fun x hx => hall x (List.mem_cons_of_mem _ hx))
        (fun i hi => by
          have h2 := hmid (i + 1) (by simpa using Nat.succ_lt_succ hi)
          simpa [evData, List.take_succ_cons, List.append_assoc] using h2)
        (by simpa [evData, List.append_assoc] using hfull)
      constructor <;>
        simp [recvLoop, hde, hdec0, hv0, evData, List.append_assoc, ihh.1, ihh.2]

/-! Claim theorems. -/

/-- C1: for every payload the handler actually delegates (non-empty,
structurally valid, top-level object — for any other payload the
exchange is never invoked, so the claim holds vacuously), if an
exception with message `e` is raised during the connect or write phase
of the exchange, `_call_enclave` returns a Success outcome whose
payload is the JSON error document for the message
`"Enclave error: " ++ e` (a structured document containing the backend
error), and `do_POST` consequently responds 200 with exactly that
document as its JSON body — not 502 or 500. -/
theorem c1_connect_write_error_yields_200_json
    (body : List Nat) (cs : List Char) (net : Net) (e : String)
    (hb : body ≠ [])
    (hdec : utf8Decode body = some cs)
    (hval : jsonValidChars cs = true)
    (hobj : jsonTopIsObj cs = true)
    (herr : net.connectRes = some e ∨ (net.connectRes = none ∧ net.sendRes = some e)) :
    (callEnclave net).ret = some (errorDoc ("Enclave error: " ++ e)) ∧
    (doPOST body net).resp.status = 200 ∧
    (doPOST body net).resp.body = errorDoc ("Enclave error: " ++ e) ∧
    (doPOST body net).resp.contentType = "application/json" := by
  have hret : (callEnclave net).ret = some (errorDoc ("Enclave error: " ++ e)) := by
    rcases herr with h | ⟨h1, h2⟩
    · simp [callEnclave, h]
    · simp [callEnclave, h1, h2]
  have hlen : ¬ body.length = 0 := fun h => hb (List.length_eq_zero.mp h)
  refine ⟨hret, ?_, ?_, ?_⟩ <;> simp [doPOST, hlen, hdec, hval, hobj, hret]

/-- Witness for C1: body `"\x7b\x7d"`, backend whose connect raises
`"Connection refused"`. -/
theorem c1_witness :
    (([123, 125] : List Nat) ≠ [] ∧
      utf8Decode [123, 125] = some [Char.ofNat 123, Char.ofNat 125] ∧
      jsonValidChars [Char.ofNat 123, Char.ofNat 125] = true ∧
      jsonTopIsObj [Char.ofNat 123, Char.ofNat 125] = true) ∧
    ((callEnclave ⟨some "Connection refused", none, []⟩).ret
        = some (errorDoc ("Enclave error: " ++ "Connection refused")) ∧
      (doPOST [123, 125] ⟨some "Connection refused", none, []⟩).resp.status = 200 ∧
      (doPOST [123, 125] ⟨some "Connection refused", none, []⟩).resp.body
        = errorDoc ("Enclave error: " ++ "Connection refused") ∧
      (doPOST [123, 125] ⟨some "Connection refused", none, []⟩).resp.contentType
        = "application/json") :=
  ⟨⟨by decide, by decide, by decide, by decide⟩,
    c1_connect_write_error_yields_200_json [123, 125] [Char.ofNat 123, Char.ofNat 125]
      ⟨some "Connection refused", none, []⟩ "Connection refused"
      (by decide) (by decide) (by decide) (by decide) (Or.inl rfl)⟩

/-- C3 counterexample: an exchange in which connect succeeds but the
write raises `"Broken pipe"`.  The exception jumps to the `except`
clause, which returns the error document without ever reaching
`s.close()`: a connection opened by `exchange` is left unclosed on this
exit path, refuting the claim that the connection is closed on every
exit path including write exceptions. -/
theorem c3_counterexample :
    (callEnclave ⟨none, some "Broken pipe", []⟩).connOpened = true ∧
    (callEnclave ⟨none, some "Broken pipe", []⟩).closed = false ∧
    (callEnclave ⟨none, some "Broken pipe", []⟩).ret
      = some (errorDoc ("Enclave error: " ++ "Broken pipe")) :=
  ⟨rfl, rfl, rfl⟩

/-- C3 amended: `s.close()` runs if and only if no exception is raised —
i.e. connect and write succeed and the read loop ends by stream close,
successful parse, or `socket.timeout` rather than by an escaping
exception.  On all exception paths (`connect`, `sendall`, non-timeout
`recv` errors, buffer decode errors) `_call_enclave` returns without
closing.  Each call opens at most the single connection it creates. -/
theorem c3_close_iff_no_exception (net : Net) :
    (callEnclave net).closed = true ↔
      net.connectRes = none ∧ net.sendRes = none ∧
        ∀ m, (recvLoop net.recvs []).2.1 ≠ LoopExit.raised m := by
  cases hc : net.connectRes with
  | some e => simp [callEnclave, hc]
  | none =>
    cases hs : net.sendRes with
    | some e => simp [callEnclave, hc, hs]
    | none =>
      rcases hr : recvLoop net.recvs [] with ⟨buf, ex, t⟩
      cases ex with
      | closed => simp [callEnclave, hc, hs, hr]
      | parsed => simp [callEnclave, hc, hs, hr]
      | timedOut => simp [callEnclave, hc, hs, hr]
      | raised m => simp [callEnclave, hc, hs, hr]

/-- C4 counterexample: the non-empty body `[255]` fails to parse as a
structured document, yet `do_POST` responds 500, not 400: the
`UnicodeDecodeError` raised by `body_bytes.decode("utf-8")` is not a
`json.JSONDecodeError`, so only the outer `except Exception` catches it.
No backend connection is attempted. -/
theorem c4_counterexample :
    ([255] : List Nat) ≠ [] ∧ pyParses [255] = false ∧
    (doPOST [255] ⟨none, none, []⟩).resp.status = 500 ∧
    (doPOST [255] ⟨none, none, []⟩).resp.status ≠ 400 ∧
    (doPOST [255] ⟨none, none, []⟩).contactedEnclave = false := by
  decide

/-- C4 amended: a non-empty body that fails to parse never reaches the
backend; if it decodes as UTF-8 (the failure is a JSON syntax error) the
response is 400 `"Invalid JSON"` — a message distinct from the
empty-body message — while a body that is not valid UTF-8 yields 500
instead. -/
theorem c4_invalid_body_rejected_without_backend (body : List Nat) (net : Net)
    (hb : body ≠ []) (hfail : pyParses body = false) :
    (doPOST body net).contactedEnclave = false ∧
    (∀ cs, utf8Decode body = some cs →
      (doPOST body net).resp = sendErrorResp 400 "Invalid JSON") ∧
    (utf8Decode body = none →
      (doPOST body net).resp = sendErrorResp 500 unicodeErrMsg) ∧
    "Invalid JSON" ≠ "Empty request body" := by
  have hlen : ¬ body.length = 0 := fun h => hb (List.length_eq_zero.mp h)
  cases hdec : utf8Decode body with
  | none =>
    refine ⟨by simp [doPOST, hlen, hdec], ?_, ?_, by decide⟩
    · intro cs hcs; cases hcs
    · intro _; simp [doPOST, hlen, hdec]
  | some cs0 =>
    have hv : jsonValidChars cs0 = false := by
      unfold pyParses at hfail
      rwa [hdec] at hfail
    refine ⟨by simp [doPOST, hlen, hdec, hv], ?_, ?_, by decide⟩
    · intro cs hcs
      cases hcs
      simp [doPOST, hlen, hdec, hv]
    · intro hn; cases hn

/-- Witness for C4 amended: body `"\x7b"` (a lone opening brace). -/
theorem c4_witness :
    (([123] : List Nat) ≠ [] ∧ pyParses [123] = false) ∧
    ((doPOST [123] ⟨none, none, []⟩).contactedEnclave = false ∧
      (∀ cs, utf8Decode [123] = some cs →
        (doPOST [123] ⟨none, none, []⟩).resp = sendErrorResp 400 "Invalid JSON") ∧
      (utf8Decode [123] = none →
        (doPOST [123] ⟨none, none, []⟩).resp = sendErrorResp 500 unicodeErrMsg) ∧
      "Invalid JSON" ≠ "Empty request body") :=
  ⟨⟨by decide, by decide⟩,
    c4_invalid_body_rejected_without_backend [123] ⟨none, none, []⟩
      (by decide) (by decide)⟩

/-- C5 counterexample: `s.settimeout(60)` is a per-operation timeout,
not an overall read timeout.  A backend delivering two non-JSON chunks
after 59 seconds each (both physically consistent with the 60-second
per-recv timeout) keeps the loop reading for 178 seconds in total —
more than the claimed one-minute overall bound. -/
theorem c5_counterexample :
    netWF ⟨none, none,
      [RecvEvent.chunk [91] 59, RecvEvent.chunk [91] 59]⟩ = true ∧
    (callEnclave ⟨none, none,
      [RecvEvent.chunk [91] 59, RecvEvent.chunk [91] 59]⟩).readTime = 178 ∧
    ¬ (callEnclave ⟨none, none,
      [RecvEvent.chunk [91] 59, RecvEvent.chunk [91] 59]⟩).readTime ≤ readTimeout := by
  decide

/-- C5 amended: the 60-second timeout bounds each individual `recv`, so
for any finite, physically well-formed backend behaviour with `n` recv
events the read loop terminates with total read time at most
`60 * (n + 1)` seconds; the total is not bounded by the 60-second
timeout itself. -/
theorem c5_per_recv_timeout_bound (net : Net) (h : netWF net = true) :
    (callEnclave net).readTime ≤ readTimeout * (net.recvs.length + 1) := by
  cases hc : net.connectRes with
  | some e => simp [callEnclave, hc]
  | none =>
    cases hs : net.sendRes with
    | some e => simp [callEnclave, hc, hs]
    | none =>
      have hb := recvLoop_time_le net.recvs [] h
      rcases hr : recvLoop net.recvs [] with ⟨buf, ex, t⟩
      rw [hr] at hb
      cases ex <;> simpa [callEnclave, hc, hs, hr] using hb

/-- Witness for C5 amended: a backend that never responds — single
blocking timeout, 60 ≤ 60 · 1. -/
theorem c5_witness :
    netWF ⟨none, none, []⟩ = true ∧
    (callEnclave ⟨none, none, []⟩).readTime
      ≤ readTimeout * (([] : List RecvEvent).length + 1) :=
  ⟨by decide, c5_per_recv_timeout_bound ⟨none, none, []⟩ (by decide)⟩

/-- C6: when a request with a delegated body (non-empty, structurally
valid, top-level object — any other body never invokes the exchange)
leads to an exchange in which connect and write succeed but the read
loop ends by stream close or timeout with an empty buffer,
`_call_enclave` returns `None` (the `Failure(EmptyResponse)` outcome)
and `do_POST` maps it to a 502 response carrying the error document
`"Enclave returned empty response"`. -/
theorem c6_empty_response_maps_502 (net : Net) (body : List Nat) (cs : List Char)
    (ex : LoopExit) (t : Nat)
    (h1 : net.connectRes = none) (h2 : net.sendRes = none)
    (h3 : recvLoop net.recvs [] = ([], ex, t))
    (h4 : ex = LoopExit.closed ∨ ex = LoopExit.timedOut)
    (hb : body ≠ []) (hdec : utf8Decode body = some cs)
    (hval : jsonValidChars cs = true)
    (hobj : jsonTopIsObj cs = true) :
    (callEnclave net).ret = none ∧
    (doPOST body net).resp = sendErrorResp 502 "Enclave returned empty response" := by
  have hlen : ¬ body.length = 0 := fun h => hb (List.length_eq_zero.mp h)
  have hret : (callEnclave net).ret = none := by
    rcases h4 with h4 | h4 <;> subst h4 <;> simp [callEnclave, h1, h2, h3]
  exact ⟨hret, by simp [doPOST, hlen, hdec, hval, hobj, hret]⟩

/-- Witness for C6: backend accepts the connection and times out having
sent nothing. -/
theorem c6_witness :
    (recvLoop ([] : List RecvEvent) [] = ([], LoopExit.timedOut, 60) ∧
      ([123, 125] : List Nat) ≠ [] ∧
      utf8Decode [123, 125] = some [Char.ofNat 123, Char.ofNat 125] ∧
      jsonValidChars [Char.ofNat 123, Char.ofNat 125] = true ∧
      jsonTopIsObj [Char.ofNat 123, Char.ofNat 125] = true) ∧
    ((callEnclave ⟨none, none, []⟩).ret = none ∧
      (doPOST [123, 125] ⟨none, none, []⟩).resp
        = sendErrorResp 502 "Enclave returned empty response") :=
  ⟨⟨by decide, by decide, by decide, by decide, by decide⟩,
    c6_empty_response_maps_502 ⟨none, none, []⟩ [123, 125]
      [Char.ofNat 123, Char.ofNat 125] LoopExit.timedOut 60
      rfl rfl (by decide) (Or.inr rfl) (by decide) (by decide) (by decide) (by decide)⟩

/-- C7 counterexample: the body `"5"` is non-empty and structurally
valid (`json.loads("5")` succeeds), yet `do_POST` never delegates it to
`_call_enclave`: the diagnostic `message.get('type')` raises
`AttributeError` on the parsed integer, only the outer
`except Exception` catches it, and the response is 500 — even with a
backend that would have returned a Success reply. -/
theorem c7_counterexample :
    pyParses [53] = true ∧ ([53] : List Nat) ≠ [] ∧
    (doPOST [53] ⟨none, none, [RecvEvent.chunk [123, 125] 1]⟩).contactedEnclave
      = false ∧
    (doPOST [53] ⟨none, none, [RecvEvent.chunk [123, 125] 1]⟩).resp.status = 500 := by
  decide

/-- C7 amended: for every non-empty structurally-valid body whose
top-level value is an object, `do_POST` delegates to `_call_enclave`,
and whenever that call returns `Success(bytes)` the response is 200
with exactly those bytes, unmodified, under Content-Type
`application/json`; with a backend that immediately echoes a fixed
valid structured reply in one chunk, the Success bytes equal that reply
exactly.  A structurally-valid body whose top-level value is not an
object is instead answered 500 (AttributeError at the diagnostic
`message.get('type')`) without any delegation. -/
theorem c7_success_bytes_echoed (body : List Nat) (cs : List Char) (net : Net)
    (hb : body ≠ []) (hdec : utf8Decode body = some cs)
    (hval : jsonValidChars cs = true)
    (hobj : jsonTopIsObj cs = true) :
    (∀ bs, (callEnclave net).ret = some bs →
      (doPOST body net).resp
          = { status := 200, contentType := "application/json", body := bs } ∧
        (doPOST body net).contactedEnclave = true) ∧
    (∀ reply dur, net.connectRes = none → net.sendRes = none →
      net.recvs = [RecvEvent.chunk reply dur] → reply ≠ [] →
      pyParses reply = true → (callEnclave net).ret = some reply) := by
  have hlen : ¬ body.length = 0 := fun h => hb (List.length_eq_zero.mp h)
  constructor
  · intro bs hbs
    exact ⟨by simp [doPOST, hlen, hdec, hval, hobj, hbs],
      by simp [doPOST, hlen, hdec, hval, hobj, hbs]⟩
  · intro reply dur e1 e2 e3 hrne hp
    have hde : reply.isEmpty = false := by
      cases reply with
      | nil => exact absurd rfl hrne
      | cons x xs => rfl
    obtain ⟨cs2, hdec2, hv2⟩ :
        ∃ cs2, utf8Decode reply = some cs2 ∧ jsonValidChars cs2 = true := by
      unfold pyParses at hp
      cases hd : utf8Decode reply with
      | none => rw [hd] at hp; cases hp
      | some cs2 => rw [hd] at hp; exact ⟨cs2, rfl, hp⟩
    simp [callEnclave, e1, e2, e3, recvLoop, hde, hdec2, hv2]

/-- Witness for C7 amended: body `"\x7b\x7d"`, backend echoing the reply
`"\x7b\x7d"` immediately. -/
theorem c7_witness :
    (([123, 125] : List Nat) ≠ [] ∧
      utf8Decode [123, 125] = some [Char.ofNat 123, Char.ofNat 125] ∧
      jsonValidChars [Char.ofNat 123, Char.ofNat 125] = true ∧
      jsonTopIsObj [Char.ofNat 123, Char.ofNat 125] = true ∧
      pyParses [123, 125] = true) ∧
    ((callEnclave ⟨none, none, [RecvEvent.chunk [123, 125] 1]⟩).ret
        = some [123, 125] ∧
      (doPOST [123, 125] ⟨none, none, [RecvEvent.chunk [123, 125] 1]⟩).resp
        = { status := 200, contentType := "application/json", body := [123, 125] } ∧
      (doPOST [123, 125]
          ⟨none, none, [RecvEvent.chunk [123, 125] 1]⟩).contactedEnclave = true) := by
  have h := c7_success_bytes_echoed [123, 125] [Char.ofNat 123, Char.ofNat 125]
    ⟨none, none, [RecvEvent.chunk [123, 125] 1]⟩ (by decide) (by decide) (by decide)
    (by decide)
  have hret := h.2 [123, 125] 1 rfl rfl rfl (by decide) (by decide)
  exact ⟨⟨by decide, by decide, by decide, by decide, by decide⟩,
    ⟨hret, (h.1 [123, 125] hret).1, (h.1 [123, 125] hret).2⟩⟩

/-- C8: when an exchange — reached via a delegated body (non-empty,
structurally valid, top-level object; any other body never invokes the
exchange) — ends its read phase in a timeout while the accumulated
buffer is non-empty, `_call_enclave` returns Success carrying the
partial buffer, and `do_POST` forwards those partial bytes to the
client with status 200. -/
theorem c8_partial_buffer_forwarded (net : Net) (body : List Nat) (cs : List Char)
    (buf : List Nat) (t : Nat)
    (h1 : net.connectRes = none) (h2 : net.sendRes = none)
    (h3 : recvLoop net.recvs [] = (buf, LoopExit.timedOut, t)) (h4 : buf ≠ [])
    (hb : body ≠ []) (hdec : utf8Decode body = some cs)
    (hval : jsonValidChars cs = true)
    (hobj : jsonTopIsObj cs = true) :
    (callEnclave net).ret = some buf ∧
    (doPOST body net).resp
      = { status := 200, contentType := "application/json", body := buf } := by
  have hlen : ¬ body.length = 0 := fun h => hb (List.length_eq_zero.mp h)
  have hbe : buf.isEmpty = false := by
    cases buf with
    | nil => exact absurd rfl h4
    | cons x xs => rfl
  have hret : (callEnclave net).ret = some buf := by
    simp [callEnclave, h1, h2, h3, hbe]
  exact ⟨hret, by simp [doPOST, hlen, hdec, hval, hobj, hret]⟩

/-- Witness for C8: one non-JSON chunk `"["` then a timeout; the partial
byte string `[91]` is forwarded with status 200. -/
theorem c8_witness :
    (recvLoop [RecvEvent.chunk [91] 5, RecvEvent.sockTimeout 60] []
        = ([91], LoopExit.timedOut, 65) ∧
      ([91] : List Nat) ≠ [] ∧ ([123, 125] : List Nat) ≠ [] ∧
      utf8Decode [123, 125] = some [Char.ofNat 123, Char.ofNat 125] ∧
      jsonValidChars [Char.ofNat 123, Char.ofNat 125] = true ∧
      jsonTopIsObj [Char.ofNat 123, Char.ofNat 125] = true) ∧
    ((callEnclave ⟨none, none,
        [RecvEvent.chunk [91] 5, RecvEvent.sockTimeout 60]⟩).ret = some [91] ∧
      (doPOST [123, 125] ⟨none, none,
        [RecvEvent.chunk [91] 5, RecvEvent.sockTimeout 60]⟩).resp
        = { status := 200, contentType := "application/json", body := [91] }) :=
  ⟨⟨by decide, by decide, by decide, by decide, by decide, by decide⟩,
    c8_partial_buffer_forwarded
      ⟨none, none, [RecvEvent.chunk [91] 5, RecvEvent.sockTimeout 60]⟩
      [123, 125] [Char.ofNat 123, Char.ofNat 125] [91] 65
      rfl rfl (by decide) (by decide) (by decide) (by decide) (by decide) (by decide)⟩

/-- C2 counterexample: the backend sends the complete document `"é"`
(bytes `[34, 195, 169, 34]`) split as `[34, 195]` then `[169, 34]`.
The earlier prefix fails a full structural parse (`pyParses` is false on
it), so by the claim the loop should treat it as "still more bytes
incoming" and return the full concatenation; instead
`response.decode("utf-8")` raises `UnicodeDecodeError`, which the inner
`except json.JSONDecodeError` does not catch, and `_call_enclave`
returns a fabricated error document rather than the concatenation. -/
theorem c2_counterexample :
    pyParses [34, 195] = false ∧
    pyParses ([34, 195] ++ [169, 34]) = true ∧
    (recvLoop [RecvEvent.chunk [34, 195] 1, RecvEvent.chunk [169, 34] 1] []).2.1
      = LoopExit.raised unicodeErrMsg ∧
    (callEnclave ⟨none, none,
      [RecvEvent.chunk [34, 195] 1, RecvEvent.chunk [169, 34] 1]⟩).ret
      ≠ some ([34, 195] ++ [169, 34]) := by
  decide

/-- C2 amended: if the backend splits a structurally-complete document
across multiple nonempty chunks and every earlier accumulated prefix
decodes as UTF-8 but fails the JSON parse (i.e. the parse failure is a
`json.JSONDecodeError`, not a `UnicodeDecodeError`), the read loop
treats each failure as "still more bytes incoming", keeps reading, and
`_call_enclave` returns Success with the full concatenation of all
chunks once the buffer parses. -/
theorem c2_split_document_returned_whole (net : Net)
    (h1 : net.connectRes = none) (h2 : net.sendRes = none)
    (hne : net.recvs ≠ [])
    (hall : ∀ ev ∈ net.recvs, ∃ d dur, ev = RecvEvent.chunk d dur ∧ d ≠ [])
    (hmid : ∀ i, i + 1 < net.recvs.length →
      ∃ cs, utf8Decode ((net.recvs.take (i + 1)).map evData).flatten = some cs ∧
        jsonValidChars cs = false)
    (hfull : pyParses ((net.recvs.map evData).flatten) = true) :
    (callEnclave net).ret = some ((net.recvs.map evData).flatten) ∧
    (recvLoop net.recvs []).2.1 = LoopExit.parsed := by
  have hinc := recvLoop_incremental net.recvs [] hne hall
    (fun i hi => by simpa using hmid i hi) (by simpa using hfull)
  rcases hr : recvLoop net.recvs [] with ⟨buf, ex, t⟩
  rw [hr] at hinc
  have hbuf : buf = (net.recvs.map evData).flatten := by simpa using hinc.1
  have hex : ex = LoopExit.parsed := by simpa using hinc.2
  subst hex
  have hpb : pyParses buf = true := by rw [hbuf]; exact hfull
  have hbe : buf.isEmpty = false := by
    cases buf with
    | nil => exact absurd hpb (by decide)
    | cons x xs => rfl
  have hret : (callEnclave net).ret = some buf := by
    simp [callEnclave, h1, h2, hr, hbe]
  rw [hbuf] at hret
  exact ⟨hret, by simp [hr]⟩

/-- Witness for C2 amended: chunks `"\x7b"` and `"\x7d"`; the prefix
fails the parse, the concatenation `"\x7b\x7d"` parses, and the loop
returns the concatenation. -/
theorem c2_witness :
    (([RecvEvent.chunk [123] 1, RecvEvent.chunk [125] 1] : List RecvEvent) ≠ [] ∧
      pyParses (([RecvEvent.chunk [123] 1,
        RecvEvent.chunk [125] 1].map evData).flatten) = true ∧
      ([RecvEvent.chunk [123] 1, RecvEvent.chunk [125] 1].map evData).flatten
        = [123, 125]) ∧
    ((callEnclave ⟨none, none, [RecvEvent.chunk [123] 1, RecvEvent.chunk [125] 1]⟩).ret
        = some (([RecvEvent.chunk [123] 1,
            RecvEvent.chunk [125] 1].map evData).flatten) ∧
      (recvLoop [RecvEvent.chunk [123] 1, RecvEvent.chunk [125] 1] []).2.1
        = LoopExit.parsed) :=
  ⟨⟨by decide, by decide, by decide⟩,
    c2_split_document_returned_whole
      ⟨none, none, [RecvEvent.chunk [123] 1, RecvEvent.chunk [125] 1]⟩
      rfl rfl (by decide)
      (by
        intro ev hev
        simp only [List.mem_cons, List.not_mem_nil, or_false] at hev
        rcases hev with rfl | rfl
        · exact ⟨[123], 1, rfl, by decide⟩
        · exact ⟨[125], 1, rfl, by decide⟩)
      (by
        intro i hi
        simp only [List.length_cons, List.length_nil] at hi
        have hz : i = 0 := by omega
        subst hz
        exact ⟨[Char.ofNat 123], by decide, by decide⟩)
      (by decide)⟩

/-- C9: `_is_enclave_running` returns true exactly when the connect
attempt to the configured endpoint succeeds (any exception yields
false, so the probe never raises), and the `/health` handler maps
true to `200 {"status": "healthy", "enclave_cid": cid}` and false to
`503 {"status": "enclave_down", "enclave_cid": cid}` — the endpoint is
surfaced through its context identifier. -/
theorem c9_probe_and_health_mapping (cid : Nat) :
    (∀ r : Option String, isEnclaveRunning r = true ↔ r = none) ∧
    doGET "/health" none cid
      = { status := 200, contentType := "application/json",
          body := ((dumpsStatus "healthy" cid).map encodeChar).flatten } ∧
    (∀ e : String, doGET "/health" (some e) cid
      = { status := 503, contentType := "application/json",
          body := ((dumpsStatus "enclave_down" cid).map encodeChar).flatten }) := by
  refine ⟨?_, ?_, ?_⟩
  · intro r; cases r <;> simp [isEnclaveRunning]
  · simp [doGET, isEnclaveRunning]
  · intro e; simp [doGET, isEnclaveRunning]

/-- C10 counterexample: the backend sends `"\x7b\x7d "` — a complete
document followed by a trailing space — in one chunk.  `json.loads`
accepts trailing whitespace, so the loop stops with a successful parse
and returns bytes that strictly extend the complete document
`"\x7b\x7d"`: there ARE trailing bytes after the document. -/
theorem c10_counterexample :
    (recvLoop [RecvEvent.chunk [123, 125, 32] 1] []).2.1 = LoopExit.parsed ∧
    (callEnclave ⟨none, none, [RecvEvent.chunk [123, 125, 32] 1]⟩).ret
      = some ([123, 125] ++ [32]) ∧
    pyParses [123, 125] = true ∧ ([32] : List Nat) ≠ [] := by
  decide

/-- C10 amended: whenever the read loop stops because the accumulated
buffer passed the structural parse, the Success bytes decode as UTF-8
and `json.loads` accepts them: exactly one complete JSON document,
followed by nothing but whitespace. -/
theorem c10_parsed_stop_returns_json_document (net : Net) (buf : List Nat) (t : Nat)
    (h1 : net.connectRes = none) (h2 : net.sendRes = none)
    (h3 : recvLoop net.recvs [] = (buf, LoopExit.parsed, t)) :
    (callEnclave net).ret = some buf ∧
    ∃ cs, utf8Decode buf = some cs ∧ jsonValidChars cs = true := by
  have hp : pyParses buf = true := by
    have h := recvLoop_parsed_parses net.recvs [] (by rw [h3])
    rwa [h3] at h
  have hbe : buf.isEmpty = false := by
    cases buf with
    | nil => exact absurd hp (by decide)
    | cons x xs => rfl
  refine ⟨by simp [callEnclave, h1, h2, h3, hbe], ?_⟩
  unfold pyParses at hp
  cases hd : utf8Decode buf with
  | none => rw [hd] at hp; cases hp
  | some cs => rw [hd] at hp; exact ⟨cs, rfl, hp⟩

/-- Witness for C10 amended: single chunk `"\x7b\x7d"`. -/
theorem c10_witness :
    (recvLoop [RecvEvent.chunk [123, 125] 1] []
        = ([123, 125], LoopExit.parsed, 1)) ∧
    ((callEnclave ⟨none, none, [RecvEvent.chunk [123, 125] 1]⟩).ret
        = some [123, 125] ∧
      ∃ cs, utf8Decode [123, 125] = some cs ∧ jsonValidChars cs = true) :=
  ⟨by decide,
    c10_parsed_stop_returns_json_document
      ⟨none, none, [RecvEvent.chunk [123, 125] 1]⟩ [123, 125] 1
      rfl rfl (by decide)⟩

end Autonomify
